import Mathlib

/-!
Verification of the market-analysis caching and scoring pipeline and the
LLM-orchestration glue of the crypto-wallet chat assistant.

Shallow embedding conventions:
* JS numbers are modelled as `ℚ` (the spec treats all numerics as plain
  real-valued percentages; rounding happens only at presentation
  boundaries).  `Math.round x` is `⌊x + 1/2⌋` (JS rounds half toward +∞);
  `Number(x.toFixed 2)` is `⌊100 x + 1/2⌋ / 100` (ECMAScript toFixed picks
  the closer scaled integer, ties to the larger).
* Optional / possibly-absent record fields are `Option ℚ`; the JS idiom
  `x || 0` becomes `Option.getD 0` (both send `undefined` and `0` to `0`),
  and the truthiness test `if (x)` becomes `x.getD 0 ≠ 0`.
* Timestamps are `Nat` milliseconds.  `Date.now() - last > d` under a
  clock that moved backwards is `false` in JS (negative left side) and
  `false` here (truncated subtraction), so `Nat` subtraction is faithful.
* Thrown exceptions are `Except ε`; JS objects keyed by strings are
  association lists (symbols are unique per batch, per the data model).
-/

namespace FinalDeploy

/-- JS `Math.round`: round half toward `+∞`. -/
def jsRound (q : ℚ) : ℤ := ⌊q + 1/2⌋

/-- JS `Number(x.toFixed(2))`: round to 2 decimal places, ties away from
the smaller candidate (i.e. toward `+∞`). -/
def round2 (q : ℚ) : ℚ := (jsRound (q * 100) : ℚ) / 100

/-- JS `s.toLowerCase()`: lower-case the string character by character. -/
def jsToLower (s : String) : String := ⟨s.data.map Char.toLower⟩

/-- Case-insensitive substring test used throughout the source:
`haystack.toLowerCase().includes(needle)` where `needle` is already
lower-case in every fixed term list. -/
def lowerIncludes (haystack needle : String) : Bool :=
  decide (List.IsInfix needle.data (jsToLower haystack).data)

/-! ## Data model (§3 of the spec) -/

/-- A raw per-symbol market record as supplied by the data provider
(`MarketRecord` in the spec; `any`-typed in the source). -/
structure MarketRecord where
  symbol : String
  price : ℚ
  percentChange24h : ℚ
  percentChange7d : ℚ
  volume24h : ℚ
  volume24hPrevious : Option ℚ
  volumeChange24h : Option ℚ
  marketCap : Option ℚ
  socialMentionsChange24h : ℚ
  githubActivity24h : ℚ
  ma50 : Option ℚ
  ma200 : Option ℚ
deriving Repr, DecidableEq

/-- The indicator bundle of a `TechnicalSignal`. -/
structure Indicators where
  macd : String
  rsi : ℤ
  movingAverages : String
deriving Repr, DecidableEq, Inhabited

/-- Per-symbol derived signal. -/
structure TechnicalSignal where
  sentiment : String
  indicators : Indicators
deriving Repr, DecidableEq, Inhabited

/-- The sentiment block of a `MarketAnalysis`. -/
structure SentimentInfo where
  overall : String
  fearGreedIndex : ℚ
  socialSentiment : String
  topMentions : List String
deriving Repr, DecidableEq, Inhabited

/-- The trends block of a `MarketAnalysis`. -/
structure TrendsInfo where
  shortTerm : List String
  mediumTerm : List String
  emerging : List String
deriving Repr, DecidableEq, Inhabited

/-- The metrics block of a `MarketAnalysis`. -/
structure MetricsInfo where
  totalValueLocked : String
  dailyVolume : String
  dominanceIndex : List (String × ℚ)
deriving Repr, DecidableEq, Inhabited

/-- The cached artifact: `MarketAnalysis` from
`src/lib/services/market-intelligence-service.ts`. -/
structure MarketAnalysis where
  overview : String
  sentiment : SentimentInfo
  trends : TrendsInfo
  metrics : MetricsInfo
  technicalSignals : List (String × TechnicalSignal)
deriving Repr, DecidableEq, Inhabited

/-! ## Technical scoring engine
(`MarketIntelligenceService`, private methods) -/

/-- `calculateTechnicalSentiment` (market-intelligence-service.ts:142-152):
five-tier cascade, first match wins, all comparisons strict;
`prevVolume = token.volume24hPrevious || 0`. -/
def calculateTechnicalSentiment (token : MarketRecord) : String :=
  if token.percentChange24h > 5 ∧ token.volume24h > token.volume24hPrevious.getD 0
    then "strongly bullish"
  else if token.percentChange24h > 2 ∧ token.volume24h > token.volume24hPrevious.getD 0
    then "bullish"
  else if token.percentChange24h < -5 ∧ token.volume24h > token.volume24hPrevious.getD 0
    then "strongly bearish"
  else if token.percentChange24h < -2 ∧ token.volume24h > token.volume24hPrevious.getD 0
    then "bearish"
  else "neutral"

/-- `calculateRSI` (market-intelligence-service.ts:169-174):
`Math.round(100 - (100 / (1 + (gains / (losses || 1)))))` where
`gains = Math.max(0, p)` and `losses = Math.abs(Math.min(0, p))`
(the source applies `|| 0` to `percentChange24h`, an identity on a
present numeric field). -/
def calculateRSI (token : MarketRecord) : ℤ :=
  jsRound (100 - 100 / (1 + max 0 token.percentChange24h /
    (if |min 0 token.percentChange24h| = 0 then 1
     else |min 0 token.percentChange24h|)))

/-- `calculateMACD` (market-intelligence-service.ts:163-167). -/
def calculateMACD (token : MarketRecord) : String :=
  if token.percentChange24h > token.percentChange7d then "bullish" else "bearish"

/-- `analyzeMovingAverages` (market-intelligence-service.ts:176-186):
missing moving averages default to the current price. -/
def analyzeMovingAverages (token : MarketRecord) : String :=
  if token.price > token.ma50.getD token.price ∧
      token.ma50.getD token.price > token.ma200.getD token.price
    then "strong uptrend"
  else if token.price > token.ma50.getD token.price then "uptrend"
  else if token.price < token.ma50.getD token.price ∧
      token.ma50.getD token.price < token.ma200.getD token.price
    then "strong downtrend"
  else if token.price < token.ma50.getD token.price then "downtrend"
  else "sideways"

/-- `calculateIndicators` (market-intelligence-service.ts:154-160). -/
def calculateIndicators (token : MarketRecord) : Indicators :=
  { macd := calculateMACD token
    rsi := calculateRSI token
    movingAverages := analyzeMovingAverages token }

/-- `generateTechnicalSignals` (market-intelligence-service.ts:131-140):
one entry per record, keyed by symbol, in batch order. -/
def generateTechnicalSignals (marketData : List MarketRecord) :
    List (String × TechnicalSignal) :=
  marketData.map fun token =>
    (token.symbol,
     { sentiment := calculateTechnicalSentiment token
       indicators := calculateIndicators token })

/-- `calculateDominanceIndex` (market-intelligence-service.ts:196-207):
`total = Σ (marketCap || 0)`; a symbol is emitted only when its market cap
is truthy, with value `Number(((marketCap / total) * 100).toFixed(2))`. -/
def calculateDominanceIndex (marketData : List MarketRecord) :
    List (String × ℚ) :=
  marketData.filterMap fun token =>
    if token.marketCap.getD 0 ≠ 0 then
      some (token.symbol,
        round2 (token.marketCap.getD 0
          / (marketData.map fun r => r.marketCap.getD 0).sum * 100))
    else none

/-- Average of `volumeChange24h || 0` over the batch (the
`volume24hChange` local of `extractShortTermTrends`).  Over an empty
batch this is `0/0`, which compares `false` against both thresholds in
JS (`NaN`) and here (`ℚ` division by zero gives `0`, and `0 > 20`,
`0 < -20` are both false). -/
def avgVolumeChange24h (marketData : List MarketRecord) : ℚ :=
  (marketData.map fun token => token.volumeChange24h.getD 0).sum
    / (marketData.length : ℚ)

/-- Count of records with `percentChange24h > 5` (the `gainers` local of
`extractShortTermTrends`). -/
def gainersCount (marketData : List MarketRecord) : ℕ :=
  (marketData.filter fun t => t.percentChange24h > 5).length

/-- Count of records with `percentChange24h < -5` (the `losers` local of
`extractShortTermTrends`). -/
def losersCount (marketData : List MarketRecord) : ℕ :=
  (marketData.filter fun t => t.percentChange24h < -5).length

/-- `extractShortTermTrends` (market-intelligence-service.ts:209-223):
four conditional narrative strings, pushed in source order. -/
def extractShortTermTrends (marketData : List MarketRecord) : List String :=
  (if avgVolumeChange24h marketData > 20
    then ["High volume spike across markets"] else [])
    ++ (if avgVolumeChange24h marketData < -20
        then ["Volume declining across markets"] else [])
    ++ (if (gainersCount marketData : ℚ) > (marketData.length : ℚ) * (6/10)
        then ["Broad market rally"] else [])
    ++ (if (losersCount marketData : ℚ) > (marketData.length : ℚ) * (6/10)
        then ["Market-wide correction"] else [])

/-- `extractMediumTermTrends` (market-intelligence-service.ts:225-233). -/
def extractMediumTermTrends (marketData : List MarketRecord) : List String :=
  (if (marketData.map fun token => token.percentChange7d).sum
        / (marketData.length : ℚ) > 10
    then ["Strong bullish week"] else [])
    ++ (if (marketData.map fun token => token.percentChange7d).sum
          / (marketData.length : ℚ) < -10
        then ["Bearish weekly trend"] else [])

/-! ## Market analysis cache
(`MarketIntelligenceService.getMarketAnalysis` and friends,
market-intelligence-service.ts:37-63) -/

/-- The mutable fields of the singleton service:
`lastUpdate : Date | null` (milliseconds) and
`cachedAnalysis : MarketAnalysis | null`. -/
structure CacheState where
  lastUpdate : Option Nat
  cachedAnalysis : Option MarketAnalysis
deriving Repr, DecidableEq

/-- `CACHE_DURATION = 5 * 60 * 1000` milliseconds. -/
def CACHE_DURATION : Nat := 5 * 60 * 1000

/-- `shouldRefreshCache` (market-intelligence-service.ts:59-62):
true when either field is null, else `Date.now() - lastUpdate > CACHE_DURATION`. -/
def shouldRefreshCache (s : CacheState) (now : Nat) : Bool :=
  match s.lastUpdate, s.cachedAnalysis with
  | some t, some _ => decide (now - t > CACHE_DURATION)
  | _, _ => true

/-- `getMarketAnalysis` (market-intelligence-service.ts:52-57).
`gen` is the outcome of `await this.generateMarketAnalysis()` (which
rethrows any provider error unchanged, lines 104-107).  Returns the
result delivered to the caller, the cache state after the call, and the
number of recomputations performed.  On a throw, neither assignment runs,
so the state is returned unchanged. -/
def getMarketAnalysis (s : CacheState) (now : Nat)
    (gen : Except ε MarketAnalysis) :
    Except ε MarketAnalysis × CacheState × Nat :=
  if shouldRefreshCache s now then
    match gen with
    | .ok a => (.ok a, ⟨some now, some a⟩, 1)
    | .error e => (.error e, s, 1)
  else
    (.ok (s.cachedAnalysis.getD default), s, 0)

/-- `analyzePriceTrend` (market-intelligence-service.ts:256-259):
`(await this.getMarketAnalysis()).technicalSignals[token] || null`.
Property access on the string-keyed signals object is association-list
lookup; an absent key (`undefined`) is coerced to `null` by `|| null`,
i.e. `none`.  (Signal objects are always truthy, so `|| null` is the
identity on present entries.) -/
def analyzePriceTrend (s : CacheState) (now : Nat)
    (gen : Except ε MarketAnalysis) (token : String) :
    Except ε (Option TechnicalSignal) :=
  match (getMarketAnalysis s now gen).1 with
  | .error e => .error e
  | .ok analysis => .ok (analysis.technicalSignals.lookup token)

/-! ## Enhanced Grok service (src/unnamed/part_001) -/

/-- The expertise levels of the context. -/
inductive ExpertiseLevel where
  | beginner
  | intermediate
  | advanced
deriving Repr, DecidableEq

/-- The market term list of `isMarketRelatedQuery` (part_001:225-228). -/
def marketTerms : List String :=
  ["price", "market", "trend", "analysis", "movement", "prediction"]

/-- `isMarketRelatedQuery` (part_001:225-228):
`marketTerms.some(term => query.toLowerCase().includes(term))`. -/
def isMarketRelatedQuery (query : String) : Bool :=
  marketTerms.any fun term => lowerIncludes query term

/-- The parts of the query context that `generateSuggestions` reads. -/
structure SuggestionContext where
  walletConnected : Bool
  expertiseLevel : Option ExpertiseLevel
deriving Repr, DecidableEq

/-- `generateSuggestions` (part_001:218-243): rule cascade in fixed
order — market suggestions, then wallet suggestions, then one
educational suggestion — followed by `suggestions.slice(0, 3)`. -/
def generateSuggestions (query : String) (response : String)
    (context : SuggestionContext) : List String :=
  let s1 :=
    if isMarketRelatedQuery query then
      ["Show detailed market analysis", "Compare with other tokens",
       "Check historical trends"]
    else []
  let s2 :=
    if context.walletConnected then
      ["Check my portfolio performance", "Show my transaction history",
       "Analyze my trading patterns"]
    else []
  let s3 :=
    match context.expertiseLevel with
    | some .beginner => ["Explain blockchain basics"]
    | some .advanced => ["Show advanced trading metrics"]
    | _ => []
  (s1 ++ s2 ++ s3).take 3

/-! ## Expertise inference (src/components/ChatInterface.tsx:453-465) -/

/-- A chat transcript message as seen by `determineUserExpertise`. -/
structure AIMessage where
  role : String
  content : String
deriving Repr, DecidableEq

/-- The advanced term list of `determineUserExpertise`. -/
def advancedTerms : List String :=
  ["liquidity pool", "impermanent loss", "mev", "yield farming", "amm"]

/-- The intermediate term list of `determineUserExpertise`. -/
def intermediateTerms : List String :=
  ["staking", "defi", "nft", "market cap", "swap"]

/-- `determineUserExpertise` (ChatInterface.tsx:453-465): lower-cases the
user messages, then advanced terms outrank intermediate terms, default
beginner; matching is substring containment. -/
def determineUserExpertise (messages : List AIMessage) : ExpertiseLevel :=
  let userMessages := messages.filter fun m => m.role == "user"
  let hasAdvancedTerms := userMessages.any fun m =>
    advancedTerms.any fun term => lowerIncludes m.content term
  let hasIntermediateTerms := userMessages.any fun m =>
    intermediateTerms.any fun term => lowerIncludes m.content term
  if hasAdvancedTerms then .advanced
  else if hasIntermediateTerms then .intermediate
  else .beginner

/-! ## AI model integration service (src/unnamed/part_000) -/

/-- The result shape of `grokService.processQuery` as consumed by
`generateEnhancedResponse` (`intent` is `any`-typed; `ι` abstracts it). -/
structure GrokResponse (ι : Type) where
  message : String
  intent : Option ι
  suggestions : Option (List String)
deriving Repr, DecidableEq

/-- The `{message, intent?, suggestions?}` value returned to the UI. -/
structure EnhancedResponse (ι : Type) where
  message : String
  intent : Option ι
  suggestions : Option (List String)
deriving Repr, DecidableEq

/-- The fallback message of the catch block (part_000:47-52). -/
def fallbackMessage : String :=
  "I encountered an unexpected issue. Let me know what specific information you're looking for, and I'll help you out."

/-- The static fallback suggestions of the catch block (part_000:47-52). -/
def fallbackSuggestions : List String :=
  ["Check market trends", "View wallet balance", "Learn about DeFi"]

/-- `AIModelIntegrationService.generateEnhancedResponse`
(part_000:27-53): the body of the `try` block — `processQuery` followed
by `recordInteraction` — is abstracted as its `Except` outcome
`tryBlock`; on success the Grok fields are forwarded, on any throw the
catch block returns the fixed fallback message and suggestions (with no
`intent` field). -/
def generateEnhancedResponse (tryBlock : Except ε (GrokResponse ι)) :
    EnhancedResponse ι :=
  match tryBlock with
  | .ok g =>
      { message := g.message, intent := g.intent, suggestions := g.suggestions }
  | .error _ =>
      { message := fallbackMessage, intent := none,
        suggestions := some fallbackSuggestions }

/-- Modelled from the spec's words for the refinement comparison of C4:
`round(100 - 100 / (1 + max(0, p) / max(|min(0, p)|, 1)))`. -/
def specOscillator (p : ℚ) : ℤ :=
  jsRound (100 - 100 / (1 + max 0 p / max |min 0 p| 1))

/-- Fixture for concrete witnesses: an analysis whose signal mapping has
the single key "SOL". -/
def solOnlyAnalysis : MarketAnalysis :=
  { (default : MarketAnalysis) with technicalSignals := [("SOL", default)] }

/-- Fixture for concrete witnesses: a strongly-bullish SOL record. -/
def sampleRecord : MarketRecord :=
  { symbol := "SOL", price := 100, percentChange24h := 6, percentChange7d := 2,
    volume24h := 10, volume24hPrevious := some 5, volumeChange24h := some 0,
    marketCap := some 50, socialMentionsChange24h := 0, githubActivity24h := 0,
    ma50 := none, ma200 := none }

/-- Fixture for concrete witnesses: a BTC record with market cap 150. -/
def sampleRecordBTC : MarketRecord :=
  { sampleRecord with symbol := "BTC", marketCap := some 150 }

/-! ## Helper lemmas -/

/-- The four volume-gated tiers share the guard `v > pv`, so the cascade
factors into a volume test around a pure price-change cascade. -/
theorem calculateTechnicalSentiment_eq (t : MarketRecord) :
    calculateTechnicalSentiment t =
      if t.volume24h > t.volume24hPrevious.getD 0 then
        if t.percentChange24h > 5 then "strongly bullish"
        else if t.percentChange24h > 2 then "bullish"
        else if t.percentChange24h < -5 then "strongly bearish"
        else if t.percentChange24h < -2 then "bearish"
        else "neutral"
      else "neutral" := by
  by_cases hv : t.volume24h > t.volume24hPrevious.getD 0 <;>
    simp [calculateTechnicalSentiment, hv]

/-! ## C3: sentiment cascade -/

/-- C3: the per-symbol sentiment label is computed by the five-tier
cascade in order with first match winning and all comparisons strict:
`percentChange24h > 5` with volume up gives "strongly bullish", `> 2`
with volume up gives "bullish", `< -5` with volume up gives "strongly
bearish", `< -2` with volume up gives "bearish", otherwise "neutral";
a record with `percentChange24h` exactly 5, or with `volume24h` exactly
equal to `volume24hPrevious`, falls through to the next lower tier. -/
theorem calculateTechnicalSentiment_cascade (t : MarketRecord) :
    (calculateTechnicalSentiment t = "strongly bullish" ↔
      t.percentChange24h > 5 ∧ t.volume24h > t.volume24hPrevious.getD 0)
  ∧ (calculateTechnicalSentiment t = "bullish" ↔
      2 < t.percentChange24h ∧ t.percentChange24h ≤ 5 ∧
        t.volume24h > t.volume24hPrevious.getD 0)
  ∧ (calculateTechnicalSentiment t = "strongly bearish" ↔
      t.percentChange24h < -5 ∧ t.volume24h > t.volume24hPrevious.getD 0)
  ∧ (calculateTechnicalSentiment t = "bearish" ↔
      -5 ≤ t.percentChange24h ∧ t.percentChange24h < -2 ∧
        t.volume24h > t.volume24hPrevious.getD 0)
  ∧ (calculateTechnicalSentiment t = "neutral" ↔
      t.volume24h ≤ t.volume24hPrevious.getD 0 ∨
        (-2 ≤ t.percentChange24h ∧ t.percentChange24h ≤ 2))
  ∧ (t.percentChange24h = 5 ∧ t.volume24h > t.volume24hPrevious.getD 0 →
      calculateTechnicalSentiment t = "bullish")
  ∧ (t.volume24h = t.volume24hPrevious.getD 0 →
      calculateTechnicalSentiment t = "neutral") := by
  rw [calculateTechnicalSentiment_eq]
  refine ⟨?_, ?_, ?_, ?_, ?_, ?_, ?_⟩ <;>
    split_ifs <;> simp_all <;> first | linarith | (intros; linarith)

/-- C3 witness: a record with `percentChange24h` exactly 5 and volume up
is labelled "bullish", the tier below "strongly bullish". -/
theorem calculateTechnicalSentiment_cascade_witness :
    calculateTechnicalSentiment
      { symbol := "SOL", price := 100, percentChange24h := 5,
        percentChange7d := 2, volume24h := 10, volume24hPrevious := some 5,
        volumeChange24h := some 0, marketCap := some 50,
        socialMentionsChange24h := 0, githubActivity24h := 0,
        ma50 := none, ma200 := none } = "bullish" :=
  (calculateTechnicalSentiment_cascade _).2.2.2.2.2.1 ⟨rfl, by norm_num⟩

/-! ## C4: synthetic oscillator -/

/-- C4: for every 24h percent change, the synthetic oscillator value
equals `round(100 - 100 / (1 + max(0, p) / max(|min(0, p)|, 1)))` and
always lies in the closed interval `[0, 100]`, including when the losses
term is 0 (the denominator clamp prevents division by zero). -/
theorem calculateRSI_spec_formula_and_bounds (t : MarketRecord) :
    calculateRSI t = specOscillator t.percentChange24h
  ∧ 0 ≤ calculateRSI t ∧ calculateRSI t ≤ 100 := by
  have key : ∀ p : ℚ,
      jsRound (100 - 100 / (1 + max 0 p / (if |min 0 p| = 0 then 1 else |min 0 p|)))
        = jsRound (100 - 100 / (1 + max 0 p)) ∧
      jsRound (100 - 100 / (1 + max 0 p / max |min 0 p| 1))
        = jsRound (100 - 100 / (1 + max 0 p)) := by
    intro p
    rcases le_or_lt p 0 with hp | hp
    · have hmax : max 0 p = 0 := max_eq_left hp
      have h1 : max 0 p / (if |min 0 p| = 0 then 1 else |min 0 p|) = 0 := by
        rw [hmax, zero_div]
      have h2 : max 0 p / max |min 0 p| 1 = 0 := by
        rw [hmax, zero_div]
      rw [h1, h2, hmax]
      exact ⟨rfl, rfl⟩
    · have hmin : min 0 p = 0 := min_eq_left hp.le
      have habs : |min 0 p| = 0 := by rw [hmin, abs_zero]
      rw [habs]
      norm_num
  have bounds : ∀ p : ℚ, (0:ℤ) ≤ jsRound (100 - 100 / (1 + max 0 p)) ∧
      jsRound (100 - 100 / (1 + max 0 p)) ≤ 100 := by
    intro p
    have hr : (0:ℚ) ≤ max 0 p := le_max_left 0 p
    have hpos : (0:ℚ) < 1 + max 0 p := by linarith
    have hle : 100 / (1 + max 0 p) ≤ 100 := by
      rw [div_le_iff₀ hpos]
      nlinarith
    have hgt : 0 < 100 / (1 + max 0 p) := by positivity
    constructor
    · have : (0:ℚ) ≤ 100 - 100 / (1 + max 0 p) + 1/2 := by linarith
      exact Int.le_floor.mpr (by push_cast; linarith)
    · have hlt : 100 - 100 / (1 + max 0 p) + 1/2 < 101 := by linarith
      have := Int.floor_le (100 - 100 / (1 + max 0 p) + 1/2)
      have hfl : (⌊100 - 100 / (1 + max 0 p) + 1/2⌋ : ℚ) < 101 := by linarith
      have : ⌊100 - 100 / (1 + max 0 p) + 1/2⌋ < 101 := by exact_mod_cast hfl
      unfold jsRound
      omega
  refine ⟨?_, ?_, ?_⟩
  · unfold calculateRSI specOscillator
    rw [(key t.percentChange24h).1, (key t.percentChange24h).2]
  · unfold calculateRSI
    rw [(key t.percentChange24h).1]
    exact (bounds t.percentChange24h).1
  · unfold calculateRSI
    rw [(key t.percentChange24h).1]
    exact (bounds t.percentChange24h).2


/-! ## C1: cache freshness -/

/-- C1: if a cached snapshot exists and its timestamp is at most 5
minutes old, `getMarketAnalysis` returns that snapshot unchanged with no
provider fetch; if the snapshot is absent or stale it performs exactly
one recomputation and overwrites snapshot and timestamp together; and a
second call within the window with no clock advance returns the
identical snapshot with no further provider invocation. -/
theorem getMarketAnalysis_cache_freshness (s : CacheState) (now : Nat)
    (gen : Except ε MarketAnalysis) :
    (∀ t a, s.lastUpdate = some t → s.cachedAnalysis = some a →
      now - t ≤ CACHE_DURATION →
      getMarketAnalysis s now gen = (.ok a, s, 0))
  ∧ (∀ a, shouldRefreshCache s now = true → gen = .ok a →
      getMarketAnalysis s now gen = (.ok a, ⟨some now, some a⟩, 1))
  ∧ (getMarketAnalysis s now gen).2.2 ≤ 1
  ∧ (∀ (gen' : Except ε MarketAnalysis) a s₁ n₁,
      getMarketAnalysis s now gen = (.ok a, s₁, n₁) →
      getMarketAnalysis s₁ now gen' = (.ok a, s₁, 0)) := by
  refine ⟨?_, ?_, ?_, ?_⟩
  · intro t a ht ha hfresh
    have href : shouldRefreshCache s now = false := by
      simp [shouldRefreshCache, ht, ha, Nat.not_lt.mpr hfresh]
    simp [getMarketAnalysis, href, ha]
  · intro a href hgen
    simp [getMarketAnalysis, href, hgen]
  · unfold getMarketAnalysis
    split_ifs with h
    · cases gen <;> simp
    · simp
  · intro gen' a s₁ n₁ hcall
    unfold getMarketAnalysis at hcall
    split_ifs at hcall with h
    · cases gen with
      | error e => simp at hcall
      | ok b =>
        injection hcall with h1 h23
        injection h23 with h2 h3
        injection h1 with h1
        subst h1
        subst h2
        have hf : shouldRefreshCache ⟨some now, some b⟩ now = false := by
          simp [shouldRefreshCache, CACHE_DURATION]
        simp [getMarketAnalysis, hf]
    · injection hcall with h1 h23
      injection h23 with h2 h3
      injection h1 with h1
      subst h2
      simp only [Bool.not_eq_true] at h
      simp [getMarketAnalysis, h, h1]

/-- C1 witness: with a snapshot cached at time 0 and the clock at 1000 ms
(well inside the 5-minute window), the call returns the cached snapshot,
leaves the state unchanged and performs no recomputation, even though the
provider would fail if invoked. -/
theorem getMarketAnalysis_cache_freshness_witness :
    getMarketAnalysis ⟨some 0, some default⟩ 1000
        (Except.error () : Except Unit MarketAnalysis)
      = (.ok default, ⟨some 0, some default⟩, 0) :=
  (getMarketAnalysis_cache_freshness ⟨some 0, some default⟩ 1000
    (Except.error ())).1 0 default rfl rfl (by norm_num [CACHE_DURATION])

/-! ## C2: error propagation -/

/-- C2: if recomputation fails, `getMarketAnalysis` propagates the error
to the caller with no retry or fallback, leaves the previously cached
snapshot and timestamp exactly as they were, and every subsequent call
(at any later clock value) will attempt recomputation again. -/
theorem getMarketAnalysis_error_propagation (s : CacheState) (now : Nat)
    (e : ε) (href : shouldRefreshCache s now = true) :
    getMarketAnalysis s now (.error e) = (.error e, s, 1)
  ∧ (∀ now', now ≤ now' → shouldRefreshCache s now' = true) := by
  constructor
  · simp [getMarketAnalysis, href]
  · intro now' hle
    unfold shouldRefreshCache at href ⊢
    match hu : s.lastUpdate, hc : s.cachedAnalysis with
    | some t, some a =>
      rw [hu, hc] at href
      simp only [decide_eq_true_eq] at href ⊢
      omega
    | some t, none => rfl
    | none, some a => rfl
    | none, none => rfl

/-- C2 witness: with an empty cache at clock 0, a failing recomputation
propagates the error, leaves the cache empty, and the cache would still
refresh at clock 0 and at clock 1. -/
theorem getMarketAnalysis_error_propagation_witness :
    getMarketAnalysis (⟨none, none⟩ : CacheState) 0
        (Except.error "provider down" : Except String MarketAnalysis)
      = (.error "provider down", ⟨none, none⟩, 1)
    ∧ shouldRefreshCache ⟨none, none⟩ 1 = true :=
  ⟨(getMarketAnalysis_error_propagation ⟨none, none⟩ 0 "provider down" rfl).1,
   (getMarketAnalysis_error_propagation (ε := String) ⟨none, none⟩ 0
      "provider down" rfl).2 1 (by norm_num)⟩

/-! ## C9: price-trend lookup -/

/-- Association-list lookup misses every key that is not in the key
column. -/
theorem lookup_eq_none_of_not_mem_keys {β : Type}
    (l : List (String × β)) (k : String)
    (h : k ∉ l.map Prod.fst) : l.lookup k = none := by
  induction l with
  | nil => rfl
  | cons hd tl ih =>
    simp only [List.map_cons, List.mem_cons, not_or] at h
    have hne : (k == hd.1) = false := beq_eq_false_iff_ne.mpr h.1
    simp [List.lookup, hne, ih h.2]

/-- C9: whenever `getMarketAnalysis` delivers an analysis, the public
method `analyzePriceTrend` returns exactly the `technicalSignals` lookup
of the requested symbol: the signal itself when the symbol is a key of
the mapping, and `null` (not an exception, not `undefined`) when it is
not. -/
theorem analyzePriceTrend_lookup (s : CacheState) (now : Nat)
    (gen : Except ε MarketAnalysis) (token : String)
    (analysis : MarketAnalysis)
    (h : (getMarketAnalysis s now gen).1 = .ok analysis) :
    analyzePriceTrend s now gen token
      = .ok (analysis.technicalSignals.lookup token)
  ∧ (token ∉ analysis.technicalSignals.map Prod.fst →
      analyzePriceTrend s now gen token = .ok none)
  ∧ (∀ sig, analysis.technicalSignals.lookup token = some sig →
      analyzePriceTrend s now gen token = .ok (some sig)) := by
  have hmain : analyzePriceTrend s now gen token
      = .ok (analysis.technicalSignals.lookup token) := by
    unfold analyzePriceTrend
    rw [h]
  refine ⟨hmain, ?_, ?_⟩
  · intro hnot
    rw [hmain, lookup_eq_none_of_not_mem_keys _ _ hnot]
  · intro sig hsig
    rw [hmain, hsig]

/-- C9 witness: with a fresh cache whose snapshot maps only "SOL", the
lookup of the absent symbol "BTC" yields `null` and the lookup of "SOL"
yields its signal. -/
theorem analyzePriceTrend_lookup_witness :
    analyzePriceTrend (⟨some 0, some solOnlyAnalysis⟩ : CacheState) 0
        (Except.error () : Except Unit MarketAnalysis) "BTC"
      = .ok none
    ∧ analyzePriceTrend (⟨some 0, some solOnlyAnalysis⟩ : CacheState) 0
        (Except.error () : Except Unit MarketAnalysis) "SOL"
      = .ok (some default) :=
  ⟨(analyzePriceTrend_lookup _ 0 (Except.error ()) "BTC" solOnlyAnalysis
      (by simp [getMarketAnalysis, shouldRefreshCache, CACHE_DURATION])).2.1
    (by simp [solOnlyAnalysis]),
   (analyzePriceTrend_lookup _ 0 (Except.error ()) "SOL" solOnlyAnalysis
      (by simp [getMarketAnalysis, shouldRefreshCache, CACHE_DURATION])).2.2
    default (by simp [solOnlyAnalysis, List.lookup])⟩

/-! ## C5: dominance index -/

/-- A `filterMap` whose function hits the `some` branch on every element
of the list is a `map`. -/
theorem filterMap_eq_map_of_forall {α β : Type} (l : List α)
    (f : α → Option β) (g : α → β) (h : ∀ x ∈ l, f x = some (g x)) :
    l.filterMap f = l.map g := by
  induction l with
  | nil => rfl
  | cons hd tl ih =>
    rw [List.filterMap_cons, h hd (List.mem_cons_self hd tl), List.map_cons,
      ih fun x hx => h x (List.mem_cons_of_mem hd hx)]

/-- Summed pointwise perturbations grow at most linearly in the list
length. -/
theorem abs_sum_map_sub_le {α : Type} (l : List α) (f g : α → ℚ) (c : ℚ)
    (h : ∀ x ∈ l, |f x - g x| ≤ c) :
    |(l.map f).sum - (l.map g).sum| ≤ l.length * c := by
  induction l with
  | nil => simp
  | cons hd tl ih =>
    have hhd := h hd (List.mem_cons_self hd tl)
    have htl := ih fun x hx => h x (List.mem_cons_of_mem hd hx)
    have habs := abs_add (f hd - g hd) ((tl.map f).sum - (tl.map g).sum)
    simp only [List.map_cons, List.sum_cons, List.length_cons]
    have hrw : f hd + (tl.map f).sum - (g hd + (tl.map g).sum)
        = (f hd - g hd) + ((tl.map f).sum - (tl.map g).sum) := by ring
    rw [hrw]
    push_cast
    calc |(f hd - g hd) + ((tl.map f).sum - (tl.map g).sum)|
        ≤ |f hd - g hd| + |(tl.map f).sum - (tl.map g).sum| := habs
      _ ≤ c + tl.length * c := by
          exact add_le_add hhd htl
      _ = (tl.length + 1) * c := by ring

/-- The key column of the dominance index is exactly the symbol column
of the records whose market cap is truthy (symbols without a market cap
are omitted). -/
theorem calculateDominanceIndex_keys (md : List MarketRecord) :
    (calculateDominanceIndex md).map Prod.fst
      = (md.filter fun t => decide (t.marketCap.getD 0 ≠ 0)).map
          MarketRecord.symbol := by
  unfold calculateDominanceIndex
  generalize (md.map fun r => r.marketCap.getD 0).sum = S
  induction md with
  | nil => rfl
  | cons hd tl ih =>
    rw [List.filterMap_cons, List.filter_cons]
    by_cases hc : hd.marketCap.getD 0 = 0 <;> simp_all

/-- Rounding to 2 decimal places moves a value by at most `1/200`. -/
theorem abs_round2_sub_le (x : ℚ) : |round2 x - x| ≤ 1/200 := by
  unfold round2 jsRound
  have h1 : (↑⌊x * 100 + 1/2⌋ : ℚ) ≤ x * 100 + 1/2 := Int.floor_le _
  have h2 : x * 100 + 1/2 < ↑⌊x * 100 + 1/2⌋ + 1 := Int.lt_floor_add_one _
  rw [abs_le]
  constructor <;> linarith

/-- C5: for a non-empty batch in which every record has a positive
market cap, the dominance index assigns each symbol its market-cap share
of the batch total as a percentage rounded to 2 decimal places (no
symbol omitted), and the assigned values sum to 100 within the rounding
tolerance of `1/200` per symbol. -/
theorem calculateDominanceIndex_spec (marketData : List MarketRecord)
    (hne : marketData ≠ [])
    (hpos : ∀ t ∈ marketData, 0 < t.marketCap.getD 0) :
    calculateDominanceIndex marketData
      = marketData.map (fun t =>
          (t.symbol, round2 (t.marketCap.getD 0
            / (marketData.map fun r => r.marketCap.getD 0).sum * 100)))
  ∧ |((calculateDominanceIndex marketData).map Prod.snd).sum - 100|
      ≤ (marketData.length : ℚ) * (1/200)
  ∧ (∀ md : List MarketRecord, (calculateDominanceIndex md).map Prod.fst
      = (md.filter fun t => decide (t.marketCap.getD 0 ≠ 0)).map
          MarketRecord.symbol) := by
  have hmap : calculateDominanceIndex marketData
      = marketData.map (fun t =>
          (t.symbol, round2 (t.marketCap.getD 0
            / (marketData.map fun r => r.marketCap.getD 0).sum * 100))) := by
    unfold calculateDominanceIndex
    refine filterMap_eq_map_of_forall _ _ _ fun x hx => ?_
    rw [if_pos (hpos x hx).ne']
  have hS : 0 < (marketData.map fun r => r.marketCap.getD 0).sum := by
    refine List.sum_pos _ (fun q hq => ?_) (by simpa using hne)
    obtain ⟨t, ht, rfl⟩ := List.mem_map.mp hq
    exact hpos t ht
  have hsh : (marketData.map fun t => t.marketCap.getD 0
      / (marketData.map fun r => r.marketCap.getD 0).sum * 100).sum = 100 := by
    have hfun : (fun t : MarketRecord => t.marketCap.getD 0
        / (marketData.map fun r => r.marketCap.getD 0).sum * 100)
      = fun t : MarketRecord => t.marketCap.getD 0
        * (100 / (marketData.map fun r => r.marketCap.getD 0).sum) := by
      funext t
      ring
    rw [hfun, List.sum_map_mul_right]
    field_simp
  refine ⟨hmap, ?_, fun md => calculateDominanceIndex_keys md⟩
  rw [hmap, List.map_map]
  have hcomp : (Prod.snd ∘ fun t : MarketRecord =>
      (t.symbol, round2 (t.marketCap.getD 0
        / (marketData.map fun r => r.marketCap.getD 0).sum * 100)))
    = fun t : MarketRecord => round2 (t.marketCap.getD 0
        / (marketData.map fun r => r.marketCap.getD 0).sum * 100) := rfl
  rw [hcomp]
  calc |(marketData.map fun t => round2 (t.marketCap.getD 0
          / (marketData.map fun r => r.marketCap.getD 0).sum * 100)).sum - 100|
      = |(marketData.map fun t => round2 (t.marketCap.getD 0
          / (marketData.map fun r => r.marketCap.getD 0).sum * 100)).sum
        - (marketData.map fun t => t.marketCap.getD 0
          / (marketData.map fun r => r.marketCap.getD 0).sum * 100).sum| := by
        rw [hsh]
    _ ≤ marketData.length * (1/200) :=
        abs_sum_map_sub_le _ _ _ _ fun t _ => abs_round2_sub_le _

/-- C5 witness: for the batch `[SOL (cap 50), BTC (cap 150)]` the
dominance index is `[("SOL", 25), ("BTC", 75)]` and the values sum to
100 within the tolerance. -/
theorem calculateDominanceIndex_spec_witness :
    calculateDominanceIndex [sampleRecord, sampleRecordBTC]
      = [("SOL", 25), ("BTC", 75)]
    ∧ |((calculateDominanceIndex [sampleRecord, sampleRecordBTC]).map
          Prod.snd).sum - 100|
        ≤ (([sampleRecord, sampleRecordBTC] : List MarketRecord).length : ℚ)
            * (1/200) := by
  have h := calculateDominanceIndex_spec [sampleRecord, sampleRecordBTC]
    (by simp) (by decide)
  refine ⟨?_, h.2.1⟩
  rw [h.1]
  norm_num [sampleRecord, sampleRecordBTC, round2, jsRound]

/-! ## C6: suggestion cascade and truncation -/

/-- C6: for a market-related query from a wallet-connected beginner the
suggestion list is exactly the three market suggestions in rule order —
the wallet and educational contributions are truncated away because the
market suggestions alone already total 3 — and in general the list never
exceeds 3 items. -/
theorem generateSuggestions_market_wallet_beginner (query response : String)
    (context : SuggestionContext)
    (hq : isMarketRelatedQuery query = true)
    (hw : context.walletConnected = true)
    (he : context.expertiseLevel = some .beginner) :
    generateSuggestions query response context
      = ["Show detailed market analysis", "Compare with other tokens",
         "Check historical trends"]
  ∧ (generateSuggestions query response context).length = 3
  ∧ "Explain blockchain basics" ∉ generateSuggestions query response context
  ∧ ∀ (q r : String) (c : SuggestionContext),
      (generateSuggestions q r c).length ≤ 3 := by
  have hlist : generateSuggestions query response context
      = ["Show detailed market analysis", "Compare with other tokens",
         "Check historical trends"] := by
    simp [generateSuggestions, hq, hw, he]
  refine ⟨hlist, by rw [hlist]; rfl, by rw [hlist]; simp, ?_⟩
  intro q r c
  unfold generateSuggestions
  exact List.length_take_le 3 _

/-- C6 witness: the query "price of SOL" with a connected wallet and
beginner expertise yields exactly the three market suggestions. -/
theorem generateSuggestions_market_wallet_beginner_witness :
    generateSuggestions "price of SOL" "" ⟨true, some .beginner⟩
      = ["Show detailed market analysis", "Compare with other tokens",
         "Check historical trends"]
    ∧ "Explain blockchain basics"
        ∉ generateSuggestions "price of SOL" "" ⟨true, some .beginner⟩ :=
  ⟨(generateSuggestions_market_wallet_beginner "price of SOL" ""
      ⟨true, some .beginner⟩ (by decide) rfl rfl).1,
   (generateSuggestions_market_wallet_beginner "price of SOL" ""
      ⟨true, some .beginner⟩ (by decide) rfl rfl).2.2.1⟩

/-! ## C7: expertise inference -/

/-- A user-filtered `any` over the transcript is an existential over the
user messages of the transcript. -/
theorem userTermMatch_iff (messages : List AIMessage) (terms : List String) :
    ((messages.filter fun m => m.role == "user").any
        (fun m => terms.any fun term => lowerIncludes m.content term) = true)
  ↔ ∃ m ∈ messages, m.role = "user" ∧
      ∃ t ∈ terms, lowerIncludes m.content t = true := by
  simp [List.any_eq_true, List.mem_filter, beq_iff_eq, and_assoc]

/-- C7: the inferred expertise level is 'advanced' exactly when some user
utterance contains an advanced term, otherwise 'intermediate' exactly
when some user utterance contains an intermediate term, otherwise
'beginner' (advanced terms outrank intermediate terms; matching is
case-insensitive substring containment). -/
theorem determineUserExpertise_characterization (messages : List AIMessage) :
    (determineUserExpertise messages = .advanced ↔
      ∃ m ∈ messages, m.role = "user" ∧
        ∃ t ∈ advancedTerms, lowerIncludes m.content t = true)
  ∧ (determineUserExpertise messages = .intermediate ↔
      ¬(∃ m ∈ messages, m.role = "user" ∧
          ∃ t ∈ advancedTerms, lowerIncludes m.content t = true) ∧
        ∃ m ∈ messages, m.role = "user" ∧
          ∃ t ∈ intermediateTerms, lowerIncludes m.content t = true)
  ∧ (determineUserExpertise messages = .beginner ↔
      ¬(∃ m ∈ messages, m.role = "user" ∧
          ∃ t ∈ advancedTerms, lowerIncludes m.content t = true) ∧
        ¬(∃ m ∈ messages, m.role = "user" ∧
          ∃ t ∈ intermediateTerms, lowerIncludes m.content t = true)) := by
  rw [← userTermMatch_iff messages advancedTerms,
    ← userTermMatch_iff messages intermediateTerms]
  by_cases hA : (messages.filter fun m => m.role == "user").any
      (fun m => advancedTerms.any fun term => lowerIncludes m.content term)
        = true <;>
    by_cases hI : (messages.filter fun m => m.role == "user").any
        (fun m => intermediateTerms.any fun term =>
          lowerIncludes m.content term) = true <;>
      simp [determineUserExpertise, hA, hI]

/-- C7 witness: a transcript whose only user utterance mentions "AMM"
is classified advanced (case-insensitively). -/
theorem determineUserExpertise_characterization_witness :
    determineUserExpertise
        [⟨"assistant", "hello"⟩, ⟨"user", "How does an AMM work?"⟩]
      = .advanced :=
  (determineUserExpertise_characterization
      [⟨"assistant", "hello"⟩, ⟨"user", "How does an AMM work?"⟩]).1.mpr
    ⟨⟨"user", "How does an AMM work?"⟩, by simp, rfl, "amm",
      by simp [advancedTerms], by decide⟩

/-! ## C8: short-term trend thresholds -/

/-- C8: the short-term trend list contains "Broad market rally" if and
only if strictly more than 60 percent of the batch has 24h percent
change above 5, and contains "Market-wide correction" if and only if
strictly more than 60 percent of the batch has 24h percent change below
-5. -/
theorem extractShortTermTrends_thresholds (marketData : List MarketRecord) :
    ("Broad market rally" ∈ extractShortTermTrends marketData ↔
      (gainersCount marketData : ℚ) > (marketData.length : ℚ) * (6/10))
  ∧ ("Market-wide correction" ∈ extractShortTermTrends marketData ↔
      (losersCount marketData : ℚ) > (marketData.length : ℚ) * (6/10)) := by
  unfold extractShortTermTrends
  constructor <;> split_ifs with h1 h2 h3 h4 <;> simp_all

/-- C8 witness: in a batch of two records both up more than 5 percent,
"Broad market rally" is emitted (2 > 2 * 0.6). -/
theorem extractShortTermTrends_thresholds_witness :
    "Broad market rally" ∈ extractShortTermTrends
      [sampleRecord, { sampleRecord with percentChange24h := 7 }] :=
  (extractShortTermTrends_thresholds
      [sampleRecord, { sampleRecord with percentChange24h := 7 }]).1.mpr
    (by
      have hg : gainersCount
          [sampleRecord, { sampleRecord with percentChange24h := 7 }] = 2 :=
        rfl
      have hl : ([sampleRecord,
          { sampleRecord with percentChange24h := 7 }] :
            List MarketRecord).length = 2 := rfl
      rw [hg, hl]
      norm_num)

/-! ## C10: orchestration fallback -/

/-- C10: `generateEnhancedResponse` is total — it returns a plain
response for every outcome of its internal steps — and whenever the
internal computation throws it returns the fixed fallback message
together with exactly the three static suggestions "Check market
trends", "View wallet balance", "Learn about DeFi"; on success it
forwards the Grok fields unchanged. -/
theorem generateEnhancedResponse_total {ε ι : Type} :
    (∀ e : ε, generateEnhancedResponse (ι := ι) (.error e)
      = { message := fallbackMessage, intent := none,
          suggestions := some ["Check market trends", "View wallet balance",
            "Learn about DeFi"] })
  ∧ (∀ g : GrokResponse ι, generateEnhancedResponse (ε := ε) (.ok g)
      = { message := g.message, intent := g.intent,
          suggestions := g.suggestions }) :=
  ⟨fun _ => rfl, fun _ => rfl⟩

end FinalDeploy
